import Mathlib

/-!
Verification development for the station-congestion estimation pipeline of
the imaaiteru-kun repository.  The definitions below are shallow embeddings
of the TypeScript source:

* `handleGeminiText` embeds the response-normalization branches of the
  events API route (`src/app/api/events/route.ts`, `POST`);
* `latestSurvey`, `buildStationPassengerMap` embed
  `fetchStationPassengerData` (`src/lib/passengerSurvey.ts`);
* `flatEvents`, `sortByStart`, `grouped`, `aggregate` embed the
  flatten / filter / sort / reduce grouping effect of
  `src/app/venues/page.tsx`;
* `scoreScale`, `score`, `lookupRidership` are modelled from the spec
  (the corresponding logic is delegated to an external LLM prompt or is
  absent from the checked-in sources).
-/

/-- A parsed JSON value, the result of a successful `JSON.parse`. -/
inductive JsonVal where
  | null : JsonVal
  | bool (b : Bool) : JsonVal
  | num (n : Int) : JsonVal
  | str (s : String) : JsonVal
  | arr (xs : List JsonVal) : JsonVal
  | obj (fields : List (String × JsonVal)) : JsonVal

/-- The response produced by the events API route: either a JSON body with
status 200 (`NextResponse.json(events)`) or an error body
`{detail, responseText}` with an explicit status. -/
inductive EventsResponse where
  | ok (body : JsonVal) : EventsResponse
  | err (status : Nat) (detail : String) (responseText : String) : EventsResponse

/-- Detail message of the empty-response error branch in
`src/app/api/events/route.ts`. -/
def emptyDetail : String := "Gemini APIからの応答が空でした。"

/-- Detail message of the JSON-parse-error branch in
`src/app/api/events/route.ts`. -/
def parseDetail : String := "Gemini APIからの応答が不正なJSON形式でした。"

/-- `!cleanedText.trim()` of the route: the trimmed text is empty exactly
when every character of the text is whitespace. -/
def isBlank (s : String) : Bool := s.data.all Char.isWhitespace

/-- Embedding of the inner response handling of `POST` in
`src/app/api/events/route.ts` (lines 127-161): `cleanedText` is the text
after the markdown-fence extraction, and `parsed` is the outcome of
`JSON.parse cleanedText` (`none` when the parse throws).  An empty trimmed
text and a parse failure both return a status-500 error response carrying
the raw response text; a parsed array is returned as-is, and any other
parsed value is wrapped into a one-element array. -/
def handleGeminiText (cleanedText : String) (parsed : Option JsonVal) :
    EventsResponse :=
  if isBlank cleanedText then
    EventsResponse.err 500 emptyDetail cleanedText
  else
    match parsed with
    | none => EventsResponse.err 500 parseDetail cleanedText
    | some (JsonVal.arr xs) => EventsResponse.ok (JsonVal.arr xs)
    | some j => EventsResponse.ok (JsonVal.arr [j])

/-- One entry of `odpt:passengerSurveyObject` in
`src/lib/passengerSurvey.ts`. -/
structure PassengerSurveyObject where
  surveyYear : Int
  passengerJourneys : Int
deriving DecidableEq, Repr

/-- One record of the ODPT passenger-survey response: the station ids
(`odpt:station`) and the per-year survey objects. -/
structure StationSurveyRecord where
  stations : List String
  surveyObjects : List PassengerSurveyObject
deriving DecidableEq, Repr

/-- Embedding of the `reduce` over `odpt:passengerSurveyObject` in
`fetchStationPassengerData`: JavaScript `reduce` without an initial value
uses the head as the accumulator and keeps `latest` unless
`current.surveyYear > latest.surveyYear`. -/
def latestSurvey (x : PassengerSurveyObject) (xs : List PassengerSurveyObject) :
    PassengerSurveyObject :=
  xs.foldl (fun latest current =>
    if latest.surveyYear < current.surveyYear then current else latest) x

/-- JavaScript `Map.prototype.set`: update the value in place when the key
is present, otherwise append the pair at the end. -/
def mapSet (m : List (String × Int)) (k : String) (v : Int) :
    List (String × Int) :=
  if m.any (fun p => p.1 == k) then
    m.map (fun p => if p.1 == k then (k, v) else p)
  else
    m ++ [(k, v)]

/-- JavaScript `Map.prototype.get`, returning `none` for an absent key. -/
def mapGet (m : List (String × Int)) (k : String) : Option Int :=
  (m.find? (fun p => p.1 == k)).map (fun p => p.2)

/-- One iteration of the `for (const stationData of surveyData)` loop of
`fetchStationPassengerData`: records with no survey objects are skipped,
the latest survey is selected by the `reduce`, and entries are written for
every station id only when the latest `passengerJourneys` is `> 0`. -/
def processRecord (m : List (String × Int)) (r : StationSurveyRecord) :
    List (String × Int) :=
  match r.surveyObjects with
  | [] => m
  | x :: xs =>
      if 0 < (latestSurvey x xs).passengerJourneys then
        r.stations.foldl
          (fun m sid => mapSet m sid (latestSurvey x xs).passengerJourneys) m
      else m

/-- Embedding of the map construction of `fetchStationPassengerData`
(`src/lib/passengerSurvey.ts`, lines 40-62). -/
def buildStationPassengerMap (surveyData : List StationSurveyRecord) :
    List (String × Int) :=
  surveyData.foldl processRecord []

/-- Modelled from the spec: the `RidershipProfile` record of §3 — the
station id, the boarding+alighting daily passenger figure, and the
`is_default` flag distinguishing the fallback from measured data.  No
checked-in source file implements this record; it exists only in the
specification. -/
structure RidershipProfile where
  station_id : String
  daily_passengers : Int
  is_default : Bool
deriving DecidableEq, Repr

/-- Modelled from the spec: the fixed default daily passenger figure of
§3/§4.4 used when a station is absent from the survey source. -/
def DEFAULT_DAILY_PASSENGERS : Int := 25000

/-- Modelled from the spec: `lookup(station_id) -> RidershipProfile` of
§4.4 — a station present in the survey map yields its figure doubled to
approximate boarding+alighting (§3) with `is_default = false`; an absent
station yields the fixed default `25000` with `is_default = true`.  No
checked-in source file implements this lookup; only the survey-map
construction (`fetchStationPassengerData`) is present. -/
def lookupRidership (m : List (String × Int)) (sid : String) :
    RidershipProfile :=
  match mapGet m sid with
  | some v => { station_id := sid, daily_passengers := 2 * v, is_default := false }
  | none => { station_id := sid, daily_passengers := DEFAULT_DAILY_PASSENGERS,
              is_default := true }

/-- Modelled from the spec: one band of the `TimeWeightTable` of §3. -/
structure TimeBand where
  start_hour : Int
  end_hour : Int
  ratio : Rat
deriving DecidableEq, Repr

/-- Modelled from the spec: the `CongestionWindow` record of §3. -/
structure CongestionWindow where
  start_hour : Int
  end_hour : Int
  label : String
deriving DecidableEq, Repr

/-- Modelled from the spec: the `Event` record of §3. -/
structure Event where
  venue_id : String
  name : Option String
  estimated_attendance : Int
  congestion_windows : List CongestionWindow
deriving DecidableEq, Repr

/-- Modelled from the spec: the `ScoredEvent` record of §3 (`Event` plus
`scale` and `reason`). -/
structure ScoredEvent where
  event : Event
  scale : Int
  reason : String
deriving DecidableEq, Repr

/-- Modelled from the spec: §4.2 step 1 — the contribution of one time band
to a window's weighted throughput: overlap duration times
`daily_passengers * band.ratio / band.duration`. -/
def bandThroughput (P : Int) (b : TimeBand) (s e : Int) : Rat :=
  ((max 0 (min e b.end_hour - max s b.start_hour) : Int) : Rat) *
    ((P : Rat) * b.ratio / ((b.end_hour - b.start_hour : Int) : Rat))

/-- Modelled from the spec: §4.2 step 1 — a window's weighted throughput is
the sum over all bands; windows with `end_hour ≤ start_hour` contribute
zero. -/
def windowThroughput (P : Int) (table : List TimeBand) (w : CongestionWindow) :
    Rat :=
  if w.start_hour < w.end_hour then
    (table.map (fun b => bandThroughput P b w.start_hour w.end_hour)).sum
  else 0

/-- Modelled from the spec: §4.2 step 2 — the event's representative
weighted throughput is the maximum across its windows (zero when it has
none). -/
def eventThroughput (P : Int) (table : List TimeBand)
    (ws : List CongestionWindow) : Rat :=
  (ws.map (windowThroughput P table)).foldl max 0

/-- Modelled from the spec: §4.2 step 3 —
`ratio = attendance / weighted_throughput` when the weighted throughput is
strictly positive, else `0`. -/
def ratioOf (attendance : Int) (wt : Rat) : Rat :=
  if 0 < wt then (attendance : Rat) / wt else 0

/-- Modelled from the spec: §4.2 step 4 — the fixed, ordered, first-match
scale policy. -/
def scoreScale (attendance : Int) (wt : Rat) : Int :=
  if 1/2 < ratioOf attendance wt ∨ 50000 < attendance then 10
  else if 1/5 < ratioOf attendance wt ∨ 10000 < attendance then 8
  else if 1/20 < ratioOf attendance wt then 5
  else if 0 < attendance then 3
  else 1

/-- Modelled from the spec: §4.2 —
`score(event, profile, table) -> ScoredEvent`.  The justification string is
diagnostic only.  No checked-in source implements this scorer: the scale
assignment is delegated to an external LLM via `SYSTEM_PROMPT` in
`src/app/api/events/route.ts`. -/
def score (e : Event) (profile : RidershipProfile) (table : List TimeBand) :
    ScoredEvent :=
  { event := e
    scale := scoreScale e.estimated_attendance
      (eventThroughput profile.daily_passengers table e.congestion_windows)
    reason := "attendance=" ++ toString e.estimated_attendance ++
      " throughput=" ++ toString
        (round (eventThroughput profile.daily_passengers table
          e.congestion_windows)) }

/-- One congestion-prediction window as received by the venues page
(`src/app/venues/page.tsx`, `CongestionPrediction`). -/
structure CongestionPrediction where
  start_hour : Int
  end_hour : Int
  label : String
deriving DecidableEq, Repr

/-- One event as received by the venues page (`EventInfo`). -/
structure EventInfo where
  event_name : Option String
  scale : Int
  reason : String
  congestion_predictions : List CongestionPrediction
deriving DecidableEq, Repr

/-- One facility with its events (`FacilityWithEvents`). -/
structure FacilityWithEvents where
  facility_name : String
  events : List EventInfo
deriving DecidableEq, Repr

/-- One flattened window tuple produced by the `flatMap` in the grouping
effect of `src/app/venues/page.tsx` (lines 282-291). -/
structure FlatEvent where
  start_hour : Int
  end_hour : Int
  label : String
  venue_name : String
  event_name : Option String
  scale : Int
deriving DecidableEq, Repr

/-- One member of a grouped event (`GroupedEvent.events` element). -/
structure MemberEvent where
  venue_name : String
  event_name : Option String
  scale : Int
deriving DecidableEq, Repr

/-- One timeline group (`GroupedEvent` in `src/app/venues/page.tsx`). -/
structure GroupedEvent where
  start_hour : Int
  end_hour : Int
  label : String
  events : List MemberEvent
  totalScale : Int
  eventCount : Int
deriving DecidableEq, Repr

/-- The flatten step of the grouping effect (lines 282-291): every
facility's events' predictions become window tuples carrying the venue
name, event name and scale. -/
def flatEvents (eventData : List FacilityWithEvents) : List FlatEvent :=
  eventData.flatMap fun facility =>
    facility.events.flatMap fun event =>
      event.congestion_predictions.map fun prediction =>
        { start_hour := prediction.start_hour
          end_hour := prediction.end_hour
          label := prediction.label
          venue_name := facility.facility_name
          event_name := event.event_name
          scale := event.scale }

/-- The ordering used by `filteredEvents.sort((a, b) => a.start_hour -
b.start_hour)`. -/
def startLE (a b : FlatEvent) : Prop := a.start_hour ≤ b.start_hour

instance : DecidableRel startLE :=
  fun a b => inferInstanceAs (Decidable (a.start_hour ≤ b.start_hour))

instance : IsTotal FlatEvent startLE := ⟨fun _ _ => Int.le_total _ _⟩

instance : IsTrans FlatEvent startLE := ⟨fun _ _ _ h h' => le_trans h h'⟩

/-- The sort step (line 297): JavaScript `Array.prototype.sort` is stable,
so it is embedded as the stable insertion sort by `start_hour`. -/
def sortByStart (l : List FlatEvent) : List FlatEvent :=
  List.insertionSort startLE l

/-- The member record pushed into a group's `events` list. -/
def toMember (e : FlatEvent) : MemberEvent :=
  { venue_name := e.venue_name, event_name := e.event_name, scale := e.scale }

/-- The group opened by the `else` branch of the reduce (lines 316-329). -/
def newGroup (e : FlatEvent) : GroupedEvent :=
  { start_hour := e.start_hour, end_hour := e.end_hour, label := e.label,
    events := [toMember e], totalScale := e.scale, eventCount := 1 }

/-- The key comparison of the reduce (lines 302-307): the last group and the
current tuple must agree on `start_hour`, `end_hour` and `label`. -/
def sameKey (g : GroupedEvent) (e : FlatEvent) : Bool :=
  g.start_hour == e.start_hour && g.end_hour == e.end_hour &&
    g.label == e.label

/-- The in-place update of the last group (lines 308-314): append the
member, saturate `totalScale` at 10, increment `eventCount`. -/
def mergeInto (g : GroupedEvent) (e : FlatEvent) : GroupedEvent :=
  { g with events := g.events ++ [toMember e],
           totalScale := min 10 (g.totalScale + e.scale),
           eventCount := g.eventCount + 1 }

/-- One step of the `reduce` (lines 300-332): inspect the last emitted
group; merge when the key matches, otherwise push a new group. -/
def groupStep (acc : List GroupedEvent) (e : FlatEvent) : List GroupedEvent :=
  match acc.getLast? with
  | some lastGroup =>
      if sameKey lastGroup e then acc.dropLast ++ [mergeInto lastGroup e]
      else acc ++ [newGroup e]
  | none => acc ++ [newGroup e]

/-- The whole `reduce` of the grouping effect. -/
def grouped (l : List FlatEvent) : List GroupedEvent :=
  l.foldl groupStep []

/-- The whole grouping effect of `src/app/venues/page.tsx` (lines
279-335): flatten, filter by `scale >= 5`, stable-sort by `start_hour`,
group adjacent equal windows. -/
def aggregate (eventData : List FacilityWithEvents) : List GroupedEvent :=
  grouped (sortByStart
    ((flatEvents eventData).filter (fun e => decide (5 ≤ e.scale))))

/-! ### Helper lemmas on the survey embedding -/

theorem latestSurvey_cons (x c : PassengerSurveyObject)
    (xs : List PassengerSurveyObject) :
    latestSurvey x (c :: xs) =
      latestSurvey (if x.surveyYear < c.surveyYear then c else x) xs := rfl

theorem latestSurvey_mem (x : PassengerSurveyObject)
    (xs : List PassengerSurveyObject) : latestSurvey x xs ∈ x :: xs := by
  induction xs generalizing x with
  | nil => simp [latestSurvey]
  | cons c rest ih =>
    rw [latestSurvey_cons]
    rcases List.mem_cons.mp (ih (if x.surveyYear < c.surveyYear then c else x))
      with h' | h'
    · rw [h']
      by_cases hc : x.surveyYear < c.surveyYear <;> simp [hc]
    · exact List.mem_cons_of_mem _ (List.mem_cons_of_mem _ h')

theorem latestSurvey_le (x : PassengerSurveyObject)
    (xs : List PassengerSurveyObject) :
    ∀ y ∈ x :: xs, y.surveyYear ≤ (latestSurvey x xs).surveyYear := by
  induction xs generalizing x with
  | nil =>
    intro y hy
    have : y = x := by simpa using hy
    subst this
    simp [latestSurvey]
  | cons c rest ih =>
    intro y hy
    rw [latestSurvey_cons]
    have hhead : x.surveyYear ≤
        (if x.surveyYear < c.surveyYear then c else x).surveyYear := by
      split <;> omega
    have hsecond : c.surveyYear ≤
        (if x.surveyYear < c.surveyYear then c else x).surveyYear := by
      split <;> omega
    rcases List.mem_cons.mp hy with rfl | hy'
    · exact le_trans hhead
        (ih _ _ (List.mem_cons_self _ _))
    · rcases List.mem_cons.mp hy' with rfl | hy''
      · exact le_trans hsecond (ih _ _ (List.mem_cons_self _ _))
      · exact ih _ y (List.mem_cons_of_mem _ hy'')

theorem mapSet_pos {m : List (String × Int)} {k : String} {v : Int}
    (hm : ∀ p ∈ m, 0 < p.2) (hv : 0 < v) : ∀ p ∈ mapSet m k v, 0 < p.2 := by
  intro p hp
  unfold mapSet at hp
  split at hp
  · rcases List.mem_map.mp hp with ⟨q, hq, hpq⟩
    by_cases hqk : (q.1 == k) = true
    · rw [if_pos hqk] at hpq
      rw [← hpq]
      exact hv
    · rw [if_neg hqk] at hpq
      rw [← hpq]
      exact hm q hq
  · rcases List.mem_append.mp hp with h | h
    · exact hm p h
    · have : p = (k, v) := by simpa using h
      rw [this]
      exact hv

theorem foldl_mapSet_pos (sids : List String) (v : Int) (hv : 0 < v) :
    ∀ m : List (String × Int), (∀ p ∈ m, 0 < p.2) →
      ∀ p ∈ sids.foldl (fun m sid => mapSet m sid v) m, 0 < p.2 := by
  induction sids with
  | nil => intro m hm p hp; exact hm p hp
  | cons s rest ih => intro m hm; exact ih _ (mapSet_pos hm hv)

theorem processRecord_pos {m : List (String × Int)} {r : StationSurveyRecord}
    (hm : ∀ p ∈ m, 0 < p.2) : ∀ p ∈ processRecord m r, 0 < p.2 := by
  rcases hr : r.surveyObjects with _ | ⟨x, xs⟩
  · simpa [processRecord, hr] using hm
  · simp only [processRecord, hr]
    split
    · exact foldl_mapSet_pos _ _ (by assumption) m hm
    · exact hm

theorem foldl_processRecord_pos (sd : List StationSurveyRecord) :
    ∀ m : List (String × Int), (∀ p ∈ m, 0 < p.2) →
      ∀ p ∈ sd.foldl processRecord m, 0 < p.2 := by
  induction sd with
  | nil => intro m hm; exact hm
  | cons r rest ih => intro m hm; exact ih _ (processRecord_pos hm)

/-! ### Claim theorems: events API route (C6, C8) -/

/-- C6 counterexample: at the concrete empty payload the route returns a
fatal status-500 error response, not an empty recoverable result. -/
theorem C6_counterexample :
    handleGeminiText "" none = EventsResponse.err 500 emptyDetail "" ∧
    handleGeminiText "" none ≠ EventsResponse.ok (JsonVal.arr []) :=
  ⟨rfl, fun h => EventsResponse.noConfusion h⟩

/-- C6 (amended): when the cleaned event-fact payload is empty (whitespace
only) or cannot be parsed as structured data, the route returns a fatal
status-500 error response carrying a detail message and the raw response
text — not an empty recoverable result. -/
theorem C6_error_on_empty_or_unparsable (s : String) (parsed : Option JsonVal) :
    (isBlank s = true →
      handleGeminiText s parsed = EventsResponse.err 500 emptyDetail s) ∧
    (isBlank s = false →
      handleGeminiText s none = EventsResponse.err 500 parseDetail s) := by
  constructor
  · intro h
    simp [handleGeminiText, h]
  · intro h
    simp [handleGeminiText, h]

/-- C6 witness: the amended behaviour at the empty payload and at a
nonempty unparsable payload. -/
theorem C6_error_witness :
    handleGeminiText "" none = EventsResponse.err 500 emptyDetail "" ∧
    handleGeminiText "not json" none =
      EventsResponse.err 500 parseDetail "not json" :=
  ⟨(C6_error_on_empty_or_unparsable "" none).1 rfl,
   (C6_error_on_empty_or_unparsable "not json" none).2 rfl⟩

/-- C8: a payload parsed as a single object is wrapped into a one-element
array; a payload parsed as an array is returned unwrapped. -/
theorem C8_wrap_single_object (s : String) (h : isBlank s = false) :
    (∀ fields, handleGeminiText s (some (JsonVal.obj fields)) =
        EventsResponse.ok (JsonVal.arr [JsonVal.obj fields])) ∧
    (∀ xs, handleGeminiText s (some (JsonVal.arr xs)) =
        EventsResponse.ok (JsonVal.arr xs)) := by
  constructor
  · intro fields
    simp [handleGeminiText, h]
  · intro xs
    simp [handleGeminiText, h]

/-- C8 witness: wrapping at a concrete nonempty payload parsed as an
object. -/
theorem C8_wrap_witness :
    handleGeminiText "obj" (some (JsonVal.obj [])) =
      EventsResponse.ok (JsonVal.arr [JsonVal.obj []]) :=
  (C8_wrap_single_object "obj" rfl).1 []

/-! ### Claim theorems: ridership survey (C7, C9, C10) -/

/-- C7: a station absent from the survey map yields the default profile
with `daily_passengers = 25000` and `is_default = true`, and the flag
distinguishes it from any present (measured) station. -/
theorem C7_default_profile (m : List (String × Int)) (sid : String) :
    (mapGet m sid = none →
      lookupRidership m sid =
        { station_id := sid, daily_passengers := 25000, is_default := true }) ∧
    (∀ v, mapGet m sid = some v → (lookupRidership m sid).is_default = false) := by
  constructor
  · intro h
    simp [lookupRidership, h, DEFAULT_DAILY_PASSENGERS]
  · intro v h
    simp [lookupRidership, h]

/-- C7 witness: the default profile at a concrete absent station id. -/
theorem C7_default_witness :
    lookupRidership [] "odpt.Station:JR-East.ChuoRapid.Tokyo" =
      { station_id := "odpt.Station:JR-East.ChuoRapid.Tokyo",
        daily_passengers := 25000, is_default := true } :=
  (C7_default_profile [] "odpt.Station:JR-East.ChuoRapid.Tokyo").1 rfl

/-- C9: the `reduce` over a station's survey objects returns an entry of
the list whose survey year is maximal; an entry strictly more recent than
all others is always the one returned (strictly greater year wins), and
the choice is a deterministic function of the list. -/
theorem C9_latest_survey_year (x : PassengerSurveyObject)
    (xs : List PassengerSurveyObject) :
    latestSurvey x xs ∈ x :: xs ∧
    (∀ y ∈ x :: xs, y.surveyYear ≤ (latestSurvey x xs).surveyYear) ∧
    (∀ y ∈ x :: xs,
      (∀ z ∈ x :: xs, z ≠ y → z.surveyYear < y.surveyYear) →
      latestSurvey x xs = y) := by
  refine ⟨latestSurvey_mem x xs, latestSurvey_le x xs, ?_⟩
  intro y hy hstrict
  by_contra hne
  have h1 := hstrict _ (latestSurvey_mem x xs) hne
  have h2 := latestSurvey_le x xs y hy
  omega

/-- C9 witness: with years 2019 and 2021 the strictly more recent 2021
entry is returned. -/
theorem C9_latest_witness :
    latestSurvey ⟨2019, 100⟩ [⟨2021, 50⟩] = ⟨2021, 50⟩ :=
  (C9_latest_survey_year ⟨2019, 100⟩ [⟨2021, 50⟩]).2.2 ⟨2021, 50⟩
    (by decide) (by decide)

/-- C10: every value stored in the station-to-passengers map built from
the survey response is strictly positive; a successful lookup never
returns a zero or negative figure. -/
theorem C10_map_values_positive (sd : List StationSurveyRecord) (k : String)
    (v : Int) :
    (∀ p ∈ buildStationPassengerMap sd, 0 < p.2) ∧
    (mapGet (buildStationPassengerMap sd) k = some v → 0 < v) := by
  have hpos : ∀ p ∈ buildStationPassengerMap sd, 0 < p.2 :=
    foldl_processRecord_pos sd [] (by simp)
  refine ⟨hpos, fun hget => ?_⟩
  unfold mapGet at hget
  rcases hfind : (buildStationPassengerMap sd).find? (fun p => p.1 == k)
    with _ | p
  · rw [hfind] at hget
    simp at hget
  · rw [hfind] at hget
    have hv : p.2 = v := by simpa using hget
    have hp := hpos p (List.mem_of_find?_eq_some hfind)
    omega

/-- C10 witness: a concrete built map where the stored figure is positive;
a record with figure `0` contributed nothing. -/
theorem C10_positive_witness :
    mapGet (buildStationPassengerMap
      [⟨["s1"], [⟨2020, 0⟩]⟩, ⟨["s2"], [⟨2020, 5⟩]⟩]) "s2" = some 5 ∧
    (0 : Int) < 5 :=
  ⟨rfl, (C10_map_values_positive
    [⟨["s1"], [⟨2020, 0⟩]⟩, ⟨["s2"], [⟨2020, 5⟩]⟩] "s2" 5).2 rfl⟩

/-! ### Claim theorem: congestion scorer (C2) -/

/-- C2: the scorer assigns the scale by the fixed, ordered, first-match
policy — 10 on `ratio > 1/2` or `attendance > 50000`; else 8 on
`ratio > 1/5` or `attendance > 10000`; else 5 on `ratio > 1/20`; else 3 on
positive attendance; otherwise 1 — with
`ratio = attendance / weighted_throughput` when the event's weighted
throughput is strictly positive and `ratio = 0` otherwise. -/
theorem C2_score_policy (att : Int) (wt : Rat) (e : Event)
    (p : RidershipProfile) (t : List TimeBand) :
    (score e p t).scale = scoreScale e.estimated_attendance
      (eventThroughput p.daily_passengers t e.congestion_windows) ∧
    ratioOf att wt = (if 0 < wt then (att : Rat) / wt else 0) ∧
    (scoreScale att wt = 10 ↔ (1/2 < ratioOf att wt ∨ 50000 < att)) ∧
    (scoreScale att wt = 8 ↔
      (¬(1/2 < ratioOf att wt ∨ 50000 < att) ∧
        (1/5 < ratioOf att wt ∨ 10000 < att))) ∧
    (scoreScale att wt = 5 ↔
      (¬(1/2 < ratioOf att wt ∨ 50000 < att) ∧
        ¬(1/5 < ratioOf att wt ∨ 10000 < att) ∧ 1/20 < ratioOf att wt)) ∧
    (scoreScale att wt = 3 ↔
      (¬(1/2 < ratioOf att wt ∨ 50000 < att) ∧
        ¬(1/5 < ratioOf att wt ∨ 10000 < att) ∧
        ¬(1/20 < ratioOf att wt) ∧ 0 < att)) ∧
    (scoreScale att wt = 1 ↔
      (¬(1/2 < ratioOf att wt ∨ 50000 < att) ∧
        ¬(1/5 < ratioOf att wt ∨ 10000 < att) ∧
        ¬(1/20 < ratioOf att wt) ∧ ¬(0 < att))) := by
  refine ⟨rfl, rfl, ?_, ?_, ?_, ?_, ?_⟩ <;>
  · unfold scoreScale
    split_ifs with h1 h2 h3 h4 <;> constructor <;> intro hh <;> tauto

/-- C2 witness: a concrete event with attendance `60000` is assigned scale
10 through the first branch of the policy. -/
theorem C2_policy_witness : scoreScale 60000 0 = 10 :=
  (C2_score_policy 60000 0 ⟨"e", none, 60000, []⟩ ⟨"s", 25000, false⟩
    []).2.2.1.mpr (Or.inr (by decide))

/-! ### Helper lemmas on the grouping embedding -/

theorem grouped_append (l : List FlatEvent) (e : FlatEvent) :
    grouped (l ++ [e]) = groupStep (grouped l) e := by
  unfold grouped
  rw [List.foldl_append]
  rfl

theorem eq_dropLast_concat_of_getLast?_eq_some {α : Type} {l : List α} {a : α}
    (h : l.getLast? = some a) : l = l.dropLast ++ [a] :=
  (List.dropLast_append_getLast? a h).symm

/-- The two scale-6 events sharing the window `(19, 21, 開場前)` from the
spec's worked example, as one facility payload. -/
def facilityTwoScaleSix : FacilityWithEvents :=
  { facility_name := "V",
    events :=
      [{ event_name := some "A", scale := 6, reason := "r",
         congestion_predictions := [⟨19, 21, "開場前"⟩] },
       { event_name := some "B", scale := 6, reason := "r",
         congestion_predictions := [⟨19, 21, "開場前"⟩] }] }

/-- The flattened tuple of the first scale-6 event. -/
def flatSixA : FlatEvent :=
  { start_hour := 19, end_hour := 21, label := "開場前", venue_name := "V",
    event_name := some "A", scale := 6 }

/-- The flattened tuple of the second scale-6 event. -/
def flatSixB : FlatEvent :=
  { start_hour := 19, end_hour := 21, label := "開場前", venue_name := "V",
    event_name := some "B", scale := 6 }

/-- The merged group the spec example expects. -/
def mergedSixGroup : GroupedEvent :=
  { start_hour := 19, end_hour := 21, label := "開場前",
    events := [⟨"V", some "A", 6⟩, ⟨"V", some "B", 6⟩],
    totalScale := 10, eventCount := 2 }

/-! ### Claim theorem: merge step of the aggregation (C1) -/

/-- C1: scanning the filtered, sorted tuples, a tuple whose
`(start_hour, end_hour, label)` triple equals the last emitted group's key
is appended to that group's members with
`total_scale = min 10 (total_scale + scale)` and an incremented member
count, and otherwise opens a new group with `total_scale = scale` and
member count 1; in particular two scale-6 events sharing the window
`(19, 21, 開場前)` merge into one group with `total_scale = 10` and
member count 2. -/
theorem C1_merge_step (l : List FlatEvent) (e : FlatEvent) :
    (grouped l = [] → grouped (l ++ [e]) = [newGroup e]) ∧
    (∀ gs g, grouped l = gs ++ [g] →
      grouped (l ++ [e]) =
        if sameKey g e then
          gs ++ [{ g with events := g.events ++ [toMember e],
                          totalScale := min 10 (g.totalScale + e.scale),
                          eventCount := g.eventCount + 1 }]
        else gs ++ [g, newGroup e]) ∧
    aggregate [facilityTwoScaleSix] = [mergedSixGroup] := by
  refine ⟨?_, ?_, by decide⟩
  · intro h
    rw [grouped_append, h]
    rfl
  · intro gs g hg
    rw [grouped_append, hg]
    unfold groupStep
    rw [List.getLast?_concat, List.dropLast_concat]
    dsimp only
    by_cases hk : sameKey g e
    · rw [if_pos hk, if_pos hk]
      rfl
    · rw [if_neg hk, if_neg hk]
      simp

/-- C1 witness: applying the step characterization to the two concrete
scale-6 tuples. -/
theorem C1_merge_witness :
    grouped ([flatSixA] ++ [flatSixB]) =
      if sameKey (newGroup flatSixA) flatSixB then
        [] ++ [{ newGroup flatSixA with
                 events := (newGroup flatSixA).events ++ [toMember flatSixB],
                 totalScale :=
                   min 10 ((newGroup flatSixA).totalScale + flatSixB.scale),
                 eventCount := (newGroup flatSixA).eventCount + 1 }]
      else [] ++ [newGroup flatSixA, newGroup flatSixB] :=
  (C1_merge_step [flatSixA] flatSixB).2.1 [] (newGroup flatSixA) rfl

/-- Three same-start-hour events whose middle window has a different
label, exercising the adjacent-only merge. -/
def facilityDupKey : FacilityWithEvents :=
  { facility_name := "V",
    events :=
      [{ event_name := some "A1", scale := 6, reason := "r",
         congestion_predictions := [⟨19, 21, "開場前"⟩] },
       { event_name := some "B", scale := 6, reason := "r",
         congestion_predictions := [⟨19, 20, "終演後"⟩] },
       { event_name := some "A2", scale := 6, reason := "r",
         congestion_predictions := [⟨19, 21, "開場前"⟩] }] }

/-- The first flattened tuple of `facilityDupKey`. -/
def flatDupA1 : FlatEvent :=
  { start_hour := 19, end_hour := 21, label := "開場前", venue_name := "V",
    event_name := some "A1", scale := 6 }

/-- The middle flattened tuple of `facilityDupKey` (different window). -/
def flatDupB : FlatEvent :=
  { start_hour := 19, end_hour := 20, label := "終演後", venue_name := "V",
    event_name := some "B", scale := 6 }

/-- The last flattened tuple of `facilityDupKey` (same window as the
first). -/
def flatDupA2 : FlatEvent :=
  { start_hour := 19, end_hour := 21, label := "開場前", venue_name := "V",
    event_name := some "A2", scale := 6 }

/-! ### Claim theorem: adjacent-only merging (C4) -/

/-- C4: appending a tuple either merges it into the immediately preceding
emitted group or opens a new last group — earlier groups are never touched,
reordered or coalesced — and a concrete input with three same-start tuples
whose middle window differs yields two distinct groups with an identical
`(start_hour, end_hour, label)` key. -/
theorem C4_adjacent_only (l : List FlatEvent) (e : FlatEvent) :
    (grouped (l ++ [e]) = grouped l ++ [newGroup e] ∨
      ∃ gs g, grouped l = gs ++ [g] ∧ sameKey g e = true ∧
        grouped (l ++ [e]) = gs ++ [mergeInto g e]) ∧
    (aggregate [facilityDupKey] =
        [newGroup flatDupA1, newGroup flatDupB, newGroup flatDupA2] ∧
      (newGroup flatDupA1).start_hour = (newGroup flatDupA2).start_hour ∧
      (newGroup flatDupA1).end_hour = (newGroup flatDupA2).end_hour ∧
      (newGroup flatDupA1).label = (newGroup flatDupA2).label ∧
      newGroup flatDupA1 ≠ newGroup flatDupA2) := by
  constructor
  · rw [grouped_append]
    unfold groupStep
    cases hl : (grouped l).getLast? with
    | none => exact Or.inl rfl
    | some g =>
      by_cases hk : sameKey g e
      · refine Or.inr ⟨(grouped l).dropLast, g,
          eq_dropLast_concat_of_getLast?_eq_some hl, hk, ?_⟩
        dsimp only
        rw [if_pos hk]
      · refine Or.inl ?_
        dsimp only
        rw [if_neg hk]
  · exact ⟨by decide, by decide, by decide, by decide, by decide⟩

/-- Non-strict ordering of timeline groups by `start_hour`. -/
def groupStartLE (g1 g2 : GroupedEvent) : Prop := g1.start_hour ≤ g2.start_hour

instance : IsTrans GroupedEvent groupStartLE := ⟨fun _ _ _ h h' => le_trans h h'⟩

theorem filter_key_orderedInsert (x : FlatEvent) (l : List FlatEvent) (h : Int) :
    (List.orderedInsert startLE x l).filter (fun e => e.start_hour == h) =
      if x.start_hour == h then
        x :: l.filter (fun e => e.start_hour == h)
      else l.filter (fun e => e.start_hour == h) := by
  induction l with
  | nil =>
    by_cases hx : (x.start_hour == h) = true <;>
      simp [List.orderedInsert, List.filter, hx]
  | cons b bs ih =>
    by_cases hxb : startLE x b
    · by_cases hx : (x.start_hour == h) = true <;>
        simp [List.orderedInsert, hxb, List.filter_cons, hx]
    · have hlt : b.start_hour < x.start_hour := by
        unfold startLE at hxb
        omega
      by_cases hb : (b.start_hour == h) = true
      · have hbh : b.start_hour = h := by simpa using hb
        have hx : (x.start_hour == h) = false := beq_eq_false_iff_ne.mpr (by omega)
        simp [List.orderedInsert, hxb, List.filter_cons, hb, hx, ih]
      · simp [List.orderedInsert, hxb, List.filter_cons, hb, ih]

theorem filter_key_sortByStart (l : List FlatEvent) (h : Int) :
    (sortByStart l).filter (fun e => e.start_hour == h) =
      l.filter (fun e => e.start_hour == h) := by
  unfold sortByStart
  induction l with
  | nil => rfl
  | cons a as ih =>
    simp only [List.insertionSort]
    rw [filter_key_orderedInsert, ih, List.filter_cons]

theorem grouped_starts_sublist (l : List FlatEvent) :
    ((grouped l).map (fun g => g.start_hour)).Sublist
      (l.map (fun e => e.start_hour)) := by
  induction l using List.reverseRecOn with
  | nil => simp [grouped]
  | append_singleton l e ih =>
    rw [grouped_append, List.map_append]
    unfold groupStep
    cases hl : (grouped l).getLast? with
    | none =>
      have hnil : grouped l = [] := List.getLast?_eq_none_iff.mp hl
      rw [hnil]
      simp [newGroup]
    | some g =>
      by_cases hk : sameKey g e
      · dsimp only
        rw [if_pos hk]
        have hdec := eq_dropLast_concat_of_getLast?_eq_some hl
        have h2 : (((grouped l).dropLast ++ [mergeInto g e]).map
            (fun g => g.start_hour)) = (grouped l).map (fun g => g.start_hour) := by
          conv_rhs => rw [hdec]
          simp [mergeInto]
        rw [h2]
        exact ih.trans (List.sublist_append_left _ _)
      · dsimp only
        rw [if_neg hk, List.map_append]
        have h3 : ([newGroup e].map (fun g => g.start_hour)) = [e.start_hour] := by
          simp [newGroup]
        rw [h3]
        exact ih.append (List.Sublist.refl _)

theorem chain_groupStartLE_grouped {l : List FlatEvent}
    (hl : List.Chain' startLE l) : List.Chain' groupStartLE (grouped l) := by
  have hp : List.Pairwise startLE l := List.chain'_iff_pairwise.mp hl
  have hpm : List.Pairwise (fun a b : Int => a ≤ b)
      (l.map (fun e => e.start_hour)) := by
    rw [List.pairwise_map]
    exact hp
  have hgm : List.Pairwise (fun a b : Int => a ≤ b)
      ((grouped l).map (fun g => g.start_hour)) :=
    List.Pairwise.sublist (grouped_starts_sublist l) hpm
  have hg : List.Pairwise groupStartLE (grouped l) :=
    (@List.pairwise_map GroupedEvent Int (fun g => g.start_hour)
      (fun a b : Int => a ≤ b) (grouped l)).mp hgm
  exact List.chain'_iff_pairwise.mpr hg

/-! ### Claim theorem: ordering and stability of the aggregation (C3) -/

/-- C3: the sort of the filtered tuples is by `start_hour` ascending and
stable (tuples with equal `start_hour` keep their encounter order: the
sorted list filtered to any fixed `start_hour` equals the input so
filtered), and the timeline groups returned by the aggregation are ordered
by `start_hour` ascending. -/
theorem C3_sorted_and_stable (eventData : List FacilityWithEvents)
    (l : List FlatEvent) (h : Int) :
    List.Chain' startLE (sortByStart l) ∧
    (sortByStart l).filter (fun e => e.start_hour == h) =
      l.filter (fun e => e.start_hour == h) ∧
    List.Chain' groupStartLE (aggregate eventData) := by
  refine ⟨?_, filter_key_sortByStart l h, ?_⟩
  · exact List.chain'_iff_pairwise.mpr (List.sorted_insertionSort startLE l)
  · exact chain_groupStartLE_grouped
      (List.chain'_iff_pairwise.mpr (List.sorted_insertionSort startLE _))

theorem flatEvents_scale_bounds {eventData : List FacilityWithEvents}
    (h : ∀ f ∈ eventData, ∀ ev ∈ f.events, 1 ≤ ev.scale ∧ ev.scale ≤ 10) :
    ∀ e ∈ flatEvents eventData, 1 ≤ e.scale ∧ e.scale ≤ 10 := by
  intro e he
  unfold flatEvents at he
  rcases List.mem_flatMap.mp he with ⟨f, hf, he2⟩
  rcases List.mem_flatMap.mp he2 with ⟨ev, hev, he3⟩
  rcases List.mem_map.mp he3 with ⟨p, hp, rfl⟩
  exact h f hf ev hev

theorem grouped_totalScale_bounds :
    ∀ {l : List FlatEvent}, (∀ e ∈ l, 1 ≤ e.scale ∧ e.scale ≤ 10) →
      ∀ g ∈ grouped l, 1 ≤ g.totalScale ∧ g.totalScale ≤ 10 := by
  intro l
  induction l using List.reverseRecOn with
  | nil =>
    intro _ g hg
    simp [grouped] at hg
  | append_singleton l e ih =>
    intro hl g hg
    have hl' : ∀ x ∈ l, 1 ≤ x.scale ∧ x.scale ≤ 10 :=
      fun x hx => hl x (List.mem_append_left _ hx)
    have he : 1 ≤ e.scale ∧ e.scale ≤ 10 := hl e (by simp)
    rw [grouped_append] at hg
    unfold groupStep at hg
    cases hlast : (grouped l).getLast? with
    | none =>
      rw [hlast] at hg
      dsimp only at hg
      rcases List.mem_append.mp hg with hmem | hmem
      · exact ih hl' g hmem
      · have hge : g = newGroup e := by simpa using hmem
        subst hge
        simpa [newGroup] using he
    | some g0 =>
      rw [hlast] at hg
      dsimp only at hg
      by_cases hk : sameKey g0 e
      · rw [if_pos hk] at hg
        rcases List.mem_append.mp hg with hmem | hmem
        · exact ih hl' g ((List.dropLast_sublist _).subset hmem)
        · have hge : g = mergeInto g0 e := by simpa using hmem
          have hg0 : g0 ∈ grouped l := by
            rw [eq_dropLast_concat_of_getLast?_eq_some hlast]
            exact List.mem_append_right _ (by simp)
          have hb0 := ih hl' g0 hg0
          subst hge
          unfold mergeInto
          constructor
          · exact le_min (by omega) (by omega)
          · exact min_le_left _ _
      · rw [if_neg hk] at hg
        rcases List.mem_append.mp hg with hmem | hmem
        · exact ih hl' g hmem
        · have hge : g = newGroup e := by simpa using hmem
          subst hge
          simpa [newGroup] using he

/-! ### Claim theorem: scale bounds and saturation (C5) -/

/-- C5: assuming every input event's scale lies in `[1, 10]`, every
flattened tuple's scale lies in `[1, 10]` and the `total_scale` of every
group produced by the aggregation lies in `[1, 10]`, however many tuples
were merged into it (the `min 10` saturation). -/
theorem C5_scale_bounds (eventData : List FacilityWithEvents)
    (hscale : ∀ f ∈ eventData, ∀ ev ∈ f.events, 1 ≤ ev.scale ∧ ev.scale ≤ 10) :
    (∀ e ∈ flatEvents eventData, 1 ≤ e.scale ∧ e.scale ≤ 10) ∧
    (∀ g ∈ aggregate eventData, 1 ≤ g.totalScale ∧ g.totalScale ≤ 10) := by
  have hflat := flatEvents_scale_bounds hscale
  refine ⟨hflat, ?_⟩
  intro g hg
  unfold aggregate at hg
  refine grouped_totalScale_bounds ?_ g hg
  intro e he
  unfold sortByStart at he
  have he' : e ∈ (flatEvents eventData).filter (fun e => decide (5 ≤ e.scale)) :=
    ((List.perm_insertionSort startLE _).mem_iff).mp he
  exact hflat e (List.mem_of_mem_filter he')

/-- C5 witness: the bound at the concrete merged scale-6 pair, whose
saturated `total_scale` is 10. -/
theorem C5_scale_witness :
    1 ≤ mergedSixGroup.totalScale ∧ mergedSixGroup.totalScale ≤ 10 :=
  (C5_scale_bounds [facilityTwoScaleSix] (by decide)).2 mergedSixGroup (by decide)
